import Mathlib

/-!
Shallow embedding of the StackSave mobile backend (Express + PostgreSQL).

The embedding models the per-user database state touched by the routes in
`src/routes/deposits.js`, the withdrawal route in the transactions router,
and the portfolio allocation routes in `src/routes/portfolio.js`, together
with the APY cache of the blockchain service.  Money amounts (SQL
`DECIMAL(18,6)`) are modelled as exact rationals; calendar dates
(`DATE` columns, compared day-by-day in the JS code) are modelled as
integer day numbers; timestamps for the APY cache are integer
milliseconds, as in `Date.now()`.  Row columns that no claim touches
(UUID keys, created_at/updated_at timestamps, transaction hashes,
payment-method references) are omitted.
-/

namespace StackSave

/-- Transaction `type` column (`CHECK (type IN ('deposit','withdrawal','transfer','earnings'))`). -/
inductive TxType
  | deposit
  | withdrawal
  | transfer
  | earnings
deriving DecidableEq, Repr

/-- Status column (`CHECK (status IN ('pending','confirmed','failed'))`). -/
inductive TxStatus
  | pending
  | confirmed
  | failed
deriving DecidableEq, Repr

/-- A row of the `transactions` table (append-only ledger). -/
structure Txn where
  type : TxType
  amount : ℚ
  description : String
  status : TxStatus
deriving DecidableEq, Repr

/-- A row of the `savings_goals` table. -/
structure SavingsGoal where
  title : String
  target_amount : ℚ
  current_amount : ℚ
  is_completed : Bool
deriving DecidableEq, Repr

/-- A row of the `streaks` table (one per user). -/
structure Streak where
  current_streak : ℤ
  longest_streak : ℤ
  last_deposit_date : Option ℤ
  total_deposits : ℤ
deriving DecidableEq, Repr

/-- A row of the `daily_growth` table, keyed by date. -/
structure DailyGrowth where
  date : ℤ
  growth_percentage : ℚ
  earnings : ℚ
  has_deposit : Bool
deriving DecidableEq, Repr

/-- A row of the `deposits` table. -/
structure DepositRow where
  goal_id : Option ℕ
  amount : ℚ
  status : TxStatus
  deposit_date : ℤ
deriving DecidableEq, Repr

/-- A row of the `pool_allocations` table (UNIQUE(user_id, protocol_id, pool_type)). -/
structure PoolAllocation where
  pool_type : String
  protocol_id : String
  protocol_name : String
  amount_allocated : ℚ
  current_apy : ℚ
  total_earnings : ℚ
  daily_earnings : ℚ
deriving DecidableEq, Repr

/-- One element of the `allocations` array in the body of POST /:userId/allocate. -/
structure AllocationEntry where
  poolType : String
  protocolId : String
  protocolName : String
  amount : ℚ
  percentage : ℚ
  apy : ℚ
deriving DecidableEq, Repr

/-- A row of the `allocation_history` table (append-only). -/
structure AllocationHistory where
  deposit_amount : ℚ
  allocations : List AllocationEntry
  user_mode : String
deriving DecidableEq, Repr

/-- The database state belonging to one user.  Keyed tables are association
lists from a surrogate row id (goals, pool allocations) so that routes that
address rows by id can be expressed; `next_alloc_id` plays the role of the
sequence generating fresh pool-allocation primary keys. -/
structure UserState where
  total_balance : ℚ
  total_earnings : ℚ
  goals : List (ℕ × SavingsGoal)
  streak : Option Streak
  daily_growth : List DailyGrowth
  transactions : List Txn
  deposits : List DepositRow
  allocations : List (ℕ × PoolAllocation)
  next_alloc_id : ℕ
  history : List AllocationHistory
deriving DecidableEq, Repr

/-- SELECT of a row by key from an association list (first match). -/
def lookupRow {β : Type} : List (ℕ × β) → ℕ → Option β
  | [], _ => none
  | (k, v) :: rest, key => if k = key then some v else lookupRow rest key

/-- SQL `UPDATE ... WHERE id = key` on an association list: apply `f` to
the value of every row whose key matches, leaving keys untouched. -/
def updateRow {β : Type} : List (ℕ × β) → ℕ → (β → β) → List (ℕ × β)
  | [], _, _ => []
  | (k, v) :: rest, key, f => (k, if k = key then f v else v) :: updateRow rest key f

/-- The errors surfaced by the routes (HTTP 400 validation, 404 not found,
400 "Insufficient balance"). -/
inductive ApiError
  | validationError
  | notFoundError
  | insufficientBalanceError
deriving DecidableEq, Repr

/-! ### Streak update (deposits.js lines 116-156)

The JS code reads the `streaks` row; if it exists and the stored
`last_deposit_date` (date-only string) differs from today it computes the
whole-day difference and writes back the new streak state; if the stored
date equals today it performs no write at all. -/

/-- One streak-engine step as performed inside POST /api/deposits/:userId. -/
def streakStep (streak : Streak) (today : ℤ) : Streak :=
  match streak.last_deposit_date with
  | none =>
      { streak with
          current_streak := 1
          longest_streak := max 1 streak.longest_streak
          last_deposit_date := some today
          total_deposits := streak.total_deposits + 1 }
  | some lastDepositDate =>
      if lastDepositDate = today then
        streak
      else
        let daysDiff := today - lastDepositDate
        let newStreak :=
          if daysDiff = 1 then streak.current_streak + 1
          else if daysDiff > 1 then 1
          else streak.current_streak
        { streak with
            current_streak := newStreak
            longest_streak := max newStreak streak.longest_streak
            last_deposit_date := some today
            total_deposits := streak.total_deposits + 1 }

/-- `INSERT INTO daily_growth (user_id, date, has_deposit) VALUES ($1,$2,true)
ON CONFLICT (user_id, date) DO UPDATE SET has_deposit = true` -/
def upsertDailyGrowth (rows : List DailyGrowth) (today : ℤ) : List DailyGrowth :=
  if rows.any fun r => r.date == today then
    rows.map fun r => if r.date = today then { r with has_deposit := true } else r
  else
    rows ++ [{ date := today, growth_percentage := 0, earnings := 0, has_deposit := true }]

/-! ### Deposit creation (deposits.js POST /api/deposits/:userId) -/

/-- Goal update inside the deposit transaction: add the amount to
`current_amount`, then re-read the row and set `is_completed = true` when
`current_amount >= target_amount`.  A missing goal row leaves the list
unchanged (the SQL UPDATE matches no row and the deposit proceeds). -/
def applyGoalDeposit (goals : List (ℕ × SavingsGoal)) (gid : ℕ) (amount : ℚ) :
    List (ℕ × SavingsGoal) :=
  let goals := updateRow goals gid fun g => { g with current_amount := g.current_amount + amount }
  match lookupRow goals gid with
  | some g =>
      if g.target_amount ≤ g.current_amount then
        updateRow goals gid fun g => { g with is_completed := true }
      else goals
  | none => goals

/-- The transaction description built at the end of the deposit route:
`` `Deposit${goalId ? ' to ' + title : ''}` ``; a goal id that matches no
row makes the optional-chained title `undefined`. -/
def depositDescription (goals : List (ℕ × SavingsGoal)) (goalId : Option ℕ) : String :=
  match goalId with
  | none => "Deposit"
  | some gid =>
      "Deposit to " ++ (match lookupRow goals gid with
                        | some g => g.title
                        | none => "undefined")

/-- The state produced by the committed deposit transaction: insert the
deposit row, update the goal (when given), credit the balance, run the
streak step when a streak row exists, upsert today's daily-growth row and
append the ledger transaction. -/
def createDepositState (s : UserState) (today : ℤ) (goalId : Option ℕ) (amount : ℚ) :
    UserState :=
  let goals :=
    match goalId with
    | none => s.goals
    | some gid => applyGoalDeposit s.goals gid amount
  { s with
      deposits := s.deposits ++ [⟨goalId, amount, TxStatus.confirmed, today⟩]
      goals := goals
      total_balance := s.total_balance + amount
      streak := s.streak.map fun st => streakStep st today
      daily_growth := upsertDailyGrowth s.daily_growth today
      transactions := s.transactions ++
        [⟨TxType.deposit, amount, depositDescription goals goalId, TxStatus.confirmed⟩] }

/-- POST /api/deposits/:userId — validation (`!amount || amount <= 0` → 400)
followed by the atomic deposit transaction. -/
def createDeposit (s : UserState) (today : ℤ) (goalId : Option ℕ) (amount : ℚ) :
    Except ApiError UserState :=
  if amount ≤ 0 then Except.error ApiError.validationError
  else Except.ok (createDepositState s today goalId amount)

/-! ### Withdrawal (transactions router, POST /api/transactions/:userId/withdrawal)

The route validates the amount, opens a transaction, reads the balance,
rolls back with "Insufficient balance" when `currentBalance < amount`,
otherwise inserts the confirmed withdrawal transaction and decrements the
balance.  The pair returned below is (route outcome, final database
state); an error leaves the state component untouched, which is exactly
the effect of the `ROLLBACK`. -/

/-- POST /api/transactions/:userId/withdrawal. -/
def createWithdrawal (s : UserState) (amount : ℚ) (description : Option String) :
    Except ApiError Unit × UserState :=
  if amount ≤ 0 then (Except.error ApiError.validationError, s)
  else if s.total_balance < amount then (Except.error ApiError.insufficientBalanceError, s)
  else
    (Except.ok (),
     { s with
         transactions := s.transactions ++
           [⟨TxType.withdrawal, amount,
             description.getD "Withdrawal to external wallet", TxStatus.confirmed⟩]
         total_balance := s.total_balance - amount })

/-! ### Portfolio allocation (portfolio.js POST /:userId/allocate) -/

/-- The existing `pool_allocations` row hit by the `ON CONFLICT
(user_id, protocol_id, pool_type)` clause, together with its id. -/
def findAllocation : List (ℕ × PoolAllocation) → String → String → Option (ℕ × PoolAllocation)
  | [], _, _ => none
  | (id, row) :: rest, pid, ptype =>
      if row.protocol_id = pid ∧ row.pool_type = ptype then some (id, row)
      else findAllocation rest pid ptype

/-- The upsert for one allocation entry: on conflict, add the amount to
`amount_allocated`, overwrite `current_apy`, and set `daily_earnings` to
`(old amount_allocated + new amount) * new apy / 365 / 100`; otherwise
insert a fresh row whose `daily_earnings` is `amount * apy / 365 / 100`.
Note that no statement in the route touches `users.total_balance`. -/
def upsertPoolAllocation (s : UserState) (e : AllocationEntry) : UserState :=
  match findAllocation s.allocations e.protocolId e.poolType with
  | some (id, row) =>
      let newRow : PoolAllocation :=
        { row with
            amount_allocated := row.amount_allocated + e.amount
            current_apy := e.apy
            daily_earnings := (row.amount_allocated + e.amount) * e.apy / 365 / 100 }
      { s with allocations := updateRow s.allocations id fun _ => newRow }
  | none =>
      let newRow : PoolAllocation :=
        { pool_type := e.poolType
          protocol_id := e.protocolId
          protocol_name := e.protocolName
          amount_allocated := e.amount
          current_apy := e.apy
          total_earnings := 0
          daily_earnings := e.amount * e.apy / 365 / 100 }
      { s with
          allocations := s.allocations ++ [(s.next_alloc_id, newRow)]
          next_alloc_id := s.next_alloc_id + 1 }

/-- POST /api/portfolio/:userId/allocate — validate the allocations array
and the user mode, upsert every entry in order, then append the
allocation-history row, all in one transaction. -/
def allocateDeposit (s : UserState) (depositAmount : ℚ) (entries : List AllocationEntry)
    (userMode : String) : Except ApiError UserState :=
  if entries = [] then Except.error ApiError.validationError
  else if ¬(userMode = "lite" ∨ userMode = "balanced" ∨ userMode = "pro") then
    Except.error ApiError.validationError
  else
    let s := entries.foldl upsertPoolAllocation s
    Except.ok { s with history := s.history ++ [⟨depositAmount, entries, userMode⟩] }

/-- DELETE /api/portfolio/:userId/allocation/:allocationId — look up the
row (404 + rollback when absent), delete it, and credit its
`amount_allocated` back to `users.total_balance`. -/
def deleteAllocation (s : UserState) (allocationId : ℕ) : Except ApiError Unit × UserState :=
  match lookupRow s.allocations allocationId with
  | none => (Except.error ApiError.notFoundError, s)
  | some row =>
      (Except.ok (),
       { s with
           allocations := s.allocations.filter fun p => p.1 != allocationId
           total_balance := s.total_balance + row.amount_allocated })

/-! ### APY cache (blockchain service)

`getProtocolAPY` keeps a `Map` from protocol id to `{apy, timestamp}` and
returns the cached value when `Date.now() - cached.timestamp <
CACHE_DURATION`; otherwise it runs the per-protocol fetch (a `switch` over
simulated and network-backed fetchers, every branch of which is
nondeterministic), stores `{apy, timestamp: Date.now()}` and returns the
fresh value.  The fetch dispatch is abstracted as a function argument
`fetchAPY : String → ℤ → ℚ` of the protocol id and the current time; the
deterministic cache logic is translated literally. -/

/-- A value of the `apyCache` map: `{ apy, timestamp }`. -/
structure CacheEntry where
  apy : ℚ
  timestamp : ℤ
deriving DecidableEq, Repr

/-- `const CACHE_DURATION = 10 * 60 * 1000` (milliseconds). -/
def CACHE_DURATION : ℤ := 10 * 60 * 1000

/-- The `apyCache` map, as an insertion-ordered association list. -/
abbrev ApyCache := List (String × CacheEntry)

/-- `apyCache.get(protocolId)`. -/
def cacheGet : ApyCache → String → Option CacheEntry
  | [], _ => none
  | (k, v) :: rest, id => if k = id then some v else cacheGet rest id

/-- `apyCache.set(protocolId, entry)` — replace the existing key or append. -/
def cacheSet : ApyCache → String → CacheEntry → ApyCache
  | [], id, e => [(id, e)]
  | (k, v) :: rest, id, e =>
      if k = id then (id, e) :: rest else (k, v) :: cacheSet rest id e

/-- The observable outcome of one `getProtocolAPY` call: the returned APY,
the cache afterwards, and whether the per-protocol fetcher ran. -/
structure ApyResult where
  apy : ℚ
  cache : ApyCache
  fetcherInvoked : Bool
deriving DecidableEq, Repr

/-- `getProtocolAPY(protocolId)` against a given cache at time `now`. -/
def getProtocolAPY (fetchAPY : String → ℤ → ℚ) (cache : ApyCache) (protocolId : String)
    (now : ℤ) : ApyResult :=
  match cacheGet cache protocolId with
  | some cached =>
      if now - cached.timestamp < CACHE_DURATION then
        { apy := cached.apy, cache := cache, fetcherInvoked := false }
      else
        let apy := fetchAPY protocolId now
        { apy := apy, cache := cacheSet cache protocolId ⟨apy, now⟩, fetcherInvoked := true }
  | none =>
      let apy := fetchAPY protocolId now
      { apy := apy, cache := cacheSet cache protocolId ⟨apy, now⟩, fetcherInvoked := true }

/-! ### Concrete states used by witnesses and counterexamples -/

/-- A concrete user state: zero balance, a fresh streak row, no other rows. -/
def ex0 : UserState :=
  { total_balance := 0
    total_earnings := 0
    goals := []
    streak := some ⟨0, 0, none, 0⟩
    daily_growth := []
    transactions := []
    deposits := []
    allocations := []
    next_alloc_id := 0
    history := [] }

/-- A user state holding 30 in the wallet. -/
def exBal30 : UserState := { ex0 with total_balance := 30 }

/-! ### Helper lemmas -/

theorem lookupRow_updateRow {β : Type} (rows : List (ℕ × β)) (key key2 : ℕ) (f : β → β) :
    lookupRow (updateRow rows key f) key2 =
      (lookupRow rows key2).map fun v => if key2 = key then f v else v := by
  induction rows with
  | nil => rfl
  | cons p rest ih =>
      obtain ⟨k, v⟩ := p
      by_cases h2 : k = key2
      · subst h2
        simp [updateRow, lookupRow]
      · simp [updateRow, lookupRow, h2, ih]

theorem lookupRow_append_of_none {β : Type} (xs ys : List (ℕ × β)) (k : ℕ)
    (h : lookupRow xs k = none) : lookupRow (xs ++ ys) k = lookupRow ys k := by
  induction xs with
  | nil => rfl
  | cons p rest ih =>
      obtain ⟨k1, v⟩ := p
      by_cases hk : k1 = k
      · simp [lookupRow, hk] at h
      · simp only [lookupRow, List.cons_append, if_neg hk] at h ⊢
        exact ih h

theorem lookupRow_isSome_of_findAllocation (rows : List (ℕ × PoolAllocation))
    (pid ptype : String) (id : ℕ) (row : PoolAllocation)
    (h : findAllocation rows pid ptype = some (id, row)) :
    ∃ v, lookupRow rows id = some v := by
  induction rows with
  | nil => simp [findAllocation] at h
  | cons p rest ih =>
      obtain ⟨k, v⟩ := p
      simp only [findAllocation] at h
      split at h
      · simp only [Option.some.injEq, Prod.mk.injEq] at h
        obtain ⟨rfl, rfl⟩ := h
        exact ⟨v, by simp [lookupRow]⟩
      · obtain ⟨w, hw⟩ := ih h
        by_cases hk : k = id
        · exact ⟨v, by simp [lookupRow, hk]⟩
        · exact ⟨w, by simp [lookupRow, hk, hw]⟩

theorem streakStep_last_deposit_date (st : Streak) (today : ℤ) :
    (streakStep st today).last_deposit_date = some today := by
  rcases hl : st.last_deposit_date with _ | d
  · simp [streakStep, hl]
  · by_cases hd : d = today <;> simp [streakStep, hl, hd]

theorem streakStep_same_day (st : Streak) (today : ℤ)
    (h : st.last_deposit_date = some today) : streakStep st today = st := by
  simp [streakStep, h]

theorem streakStep_idem (st : Streak) (today : ℤ) :
    streakStep (streakStep st today) today = streakStep st today :=
  streakStep_same_day _ _ (streakStep_last_deposit_date st today)

theorem cacheGet_cacheSet_self (c : ApyCache) (id : String) (e : CacheEntry) :
    cacheGet (cacheSet c id e) id = some e := by
  induction c with
  | nil => simp [cacheSet, cacheGet]
  | cons p rest ih =>
      obtain ⟨k, v⟩ := p
      by_cases hk : k = id <;> simp [cacheSet, cacheGet, hk, ih]

theorem getProtocolAPY_stored_apy (f : String → ℤ → ℚ) (c : ApyCache) (id : String)
    (now : ℤ) (e : CacheEntry)
    (h : cacheGet (getProtocolAPY f c id now).cache id = some e) :
    e.apy = (getProtocolAPY f c id now).apy := by
  unfold getProtocolAPY at h ⊢
  rcases hc : cacheGet c id with _ | cached
  · simp only [hc, cacheGet_cacheSet_self, Option.some.injEq] at h
    simp [hc, ← h]
  · by_cases ht : now - cached.timestamp < CACHE_DURATION
    · simp only [hc, if_pos ht] at h ⊢
      injection h with h1
      rw [← h1]
    · simp only [hc, if_neg ht, cacheGet_cacheSet_self, Option.some.injEq] at h ⊢
      rw [← h]

theorem createDeposit_ok (s s1 : UserState) (today : ℤ) (goalId : Option ℕ) (amount : ℚ)
    (h : createDeposit s today goalId amount = Except.ok s1) :
    0 < amount ∧ s1 = createDepositState s today goalId amount := by
  unfold createDeposit at h
  by_cases ha : amount ≤ 0
  · simp [ha] at h
  · simp only [if_neg ha, Except.ok.injEq] at h
    exact ⟨lt_of_not_le ha, h.symm⟩

/-- The state after a first deposit of 50 (no goal) on day 0 from `ex0`. -/
def exDepositAfter : UserState := createDepositState ex0 0 none 50

/-- The state after a second deposit of 20 (no goal) on the same day 0. -/
def exC3After : UserState := createDepositState exDepositAfter 0 none 20

/-! ### Claim theorems -/

/-- C2 (counterexample): the claim says a deposit with amount > 0 and no
goal reference performs no streak writes, but the deposit route always
runs the streak update; at the concrete state `ex0` (streak row
`⟨0, 0, none, 0⟩`), a deposit of 50 with no goal on day 0 rewrites the
streak row to `⟨1, 1, some 0, 1⟩`. -/
theorem deposit_no_goal_frame_counterexample :
    (createDeposit ex0 0 none 50).toOption.map UserState.streak ≠ some ex0.streak ∧
    (createDeposit ex0 0 none 50).toOption.map UserState.streak =
      some (some ⟨1, 1, some 0, 1⟩) := by
  constructor
  · decide
  · decide

/-- C2 (amended): a successful deposit with no goal reference increases
`total_balance` by exactly the amount, leaves the goals untouched, writes
the daily-growth table only through the has_deposit upsert, and updates
the streak row exactly as the streak engine dictates (unchanged only on a
same-day repeat); earnings, allocations and allocation history are
untouched. -/
theorem deposit_no_goal_frame_amended (s s1 : UserState) (today : ℤ) (amount : ℚ)
    (h : createDeposit s today none amount = Except.ok s1) :
    s1.total_balance = s.total_balance + amount ∧
    s1.goals = s.goals ∧
    s1.daily_growth = upsertDailyGrowth s.daily_growth today ∧
    s1.streak = s.streak.map (fun st => streakStep st today) ∧
    s1.total_earnings = s.total_earnings ∧
    s1.allocations = s.allocations ∧
    s1.history = s.history := by
  obtain ⟨-, rfl⟩ := createDeposit_ok s s1 today none amount h
  simp [createDepositState]

/-- C2 (witness): the amended frame property evaluated at `ex0`, day 0,
amount 50. -/
theorem deposit_no_goal_frame_amended_witness :
    exDepositAfter.total_balance = ex0.total_balance + 50 ∧
    exDepositAfter.goals = ex0.goals ∧
    exDepositAfter.daily_growth = upsertDailyGrowth ex0.daily_growth 0 ∧
    exDepositAfter.streak = ex0.streak.map (fun st => streakStep st 0) ∧
    exDepositAfter.total_earnings = ex0.total_earnings ∧
    exDepositAfter.allocations = ex0.allocations ∧
    exDepositAfter.history = ex0.history :=
  deposit_no_goal_frame_amended ex0 exDepositAfter 0 50
    (by norm_num [createDeposit, exDepositAfter])

/-- C3: a second deposit on the same calendar day as an earlier one leaves
the streak row (hence current_streak and total_deposits) unchanged, still
increases `total_balance` by its amount, and appends a confirmed deposit
Transaction row. -/
theorem same_day_second_deposit (s0 s1 s2 : UserState) (d : ℤ) (g1 g2 : Option ℕ)
    (a1 a2 : ℚ)
    (h1 : createDeposit s0 d g1 a1 = Except.ok s1)
    (h2 : createDeposit s1 d g2 a2 = Except.ok s2) :
    s2.streak = s1.streak ∧
    s2.total_balance = s1.total_balance + a2 ∧
    ∃ desc, s2.transactions =
      s1.transactions ++ [⟨TxType.deposit, a2, desc, TxStatus.confirmed⟩] := by
  obtain ⟨-, rfl⟩ := createDeposit_ok s0 s1 d g1 a1 h1
  obtain ⟨-, rfl⟩ := createDeposit_ok _ s2 d g2 a2 h2
  refine ⟨?_, by simp [createDepositState], ⟨_, rfl⟩⟩
  simp only [createDepositState]
  cases s0.streak <;> simp [streakStep_idem]

/-- C3 (witness): deposits of 50 then 20 on day 0 from `ex0`. -/
theorem same_day_second_deposit_witness :
    exC3After.streak = exDepositAfter.streak ∧
    exC3After.total_balance = exDepositAfter.total_balance + 20 ∧
    ∃ desc, exC3After.transactions =
      exDepositAfter.transactions ++ [⟨TxType.deposit, 20, desc, TxStatus.confirmed⟩] :=
  same_day_second_deposit ex0 exDepositAfter exC3After 0 none none 50 20
    (by norm_num [createDeposit, exDepositAfter])
    (by norm_num [createDeposit, exC3After])

/-- C4: a deposit with day-gap exactly 1 increments current_streak; a gap
greater than 1 resets it to 1; after any deposit the longest streak is the
maximum of its prior value and the new current streak (for states
satisfying the current ≤ longest invariant); and the concrete
day-1,2,3-then-7 scenario through the deposit route yields streak
(3, 3, day 3, 3) and then (1, 3, day 7, 4). -/
theorem streak_transition_rules :
    (∀ (st : Streak) (d today : ℤ), st.last_deposit_date = some d → today - d = 1 →
        (streakStep st today).current_streak = st.current_streak + 1) ∧
    (∀ (st : Streak) (d today : ℤ), st.last_deposit_date = some d → 1 < today - d →
        (streakStep st today).current_streak = 1) ∧
    (∀ (st : Streak) (today : ℤ), st.current_streak ≤ st.longest_streak →
        (streakStep st today).longest_streak =
          max st.longest_streak (streakStep st today).current_streak) ∧
    ((createDeposit ex0 1 none 10).toOption.bind fun s1 =>
        (createDeposit s1 2 none 10).toOption.bind fun s2 =>
          (createDeposit s2 3 none 10).toOption).map UserState.streak =
      some (some ⟨3, 3, some 3, 3⟩) ∧
    ((createDeposit ex0 1 none 10).toOption.bind fun s1 =>
        (createDeposit s1 2 none 10).toOption.bind fun s2 =>
          (createDeposit s2 3 none 10).toOption.bind fun s3 =>
            (createDeposit s3 7 none 10).toOption).map UserState.streak =
      some (some ⟨1, 3, some 7, 4⟩) := by
  refine ⟨?_, ?_, ?_, by decide, by decide⟩
  · intro st d today hlast hgap
    have hne : ¬d = today := by omega
    simp [streakStep, hlast, hne, hgap]
  · intro st d today hlast hgap
    have hne : ¬d = today := by omega
    have h1 : ¬today - d = 1 := by omega
    simp [streakStep, hlast, hne, h1, hgap, gt_iff_lt]
  · intro st today hle
    rcases hl : st.last_deposit_date with _ | d
    · simp [streakStep, hl, max_comm]
    · by_cases hd : d = today
      · simp [streakStep, hl, hd, max_eq_left hle]
      · simp [streakStep, hl, hd, max_comm]

/-- C4 (witness): the gap-1, gap-4 and longest-streak clauses evaluated at
concrete streak states. -/
theorem streak_transition_rules_witness :
    (streakStep ⟨2, 2, some 4, 9⟩ 5).current_streak = 2 + 1 ∧
    (streakStep ⟨2, 5, some 4, 9⟩ 8).current_streak = 1 ∧
    (streakStep ⟨2, 5, some 4, 9⟩ 5).longest_streak =
      max 5 (streakStep ⟨2, 5, some 4, 9⟩ 5).current_streak :=
  ⟨streak_transition_rules.1 ⟨2, 2, some 4, 9⟩ 4 5 rfl (by decide),
   streak_transition_rules.2.1 ⟨2, 5, some 4, 9⟩ 4 8 rfl (by decide),
   streak_transition_rules.2.2.1 ⟨2, 5, some 4, 9⟩ 5 (by decide)⟩

/-- A user state with one savings goal (id 1): target 100, current 60. -/
def exGoalState : UserState := { ex0 with goals := [(1, ⟨"Car", 100, 60, false⟩)] }

/-- The state after depositing 40 into goal 1 from `exGoalState` on day 0. -/
def exGoalAfter : UserState := createDepositState exGoalState 0 (some 1) 40

/-- C5: a successful deposit carrying a goal reference increases that
goal's current_amount by exactly the amount, sets is_completed whenever
the resulting current_amount reaches target_amount, and never reverts a
completed goal. -/
theorem goal_deposit_progress (s s1 : UserState) (today : ℤ) (gid : ℕ) (g : SavingsGoal)
    (amount : ℚ)
    (hg : lookupRow s.goals gid = some g)
    (h : createDeposit s today (some gid) amount = Except.ok s1) :
    ∃ g1, lookupRow s1.goals gid = some g1 ∧
      g1.current_amount = g.current_amount + amount ∧
      (g.target_amount ≤ g.current_amount + amount → g1.is_completed = true) ∧
      (g.is_completed = true → g1.is_completed = true) := by
  obtain ⟨-, rfl⟩ := createDeposit_ok s s1 today (some gid) amount h
  simp only [createDepositState, applyGoalDeposit]
  have hinc : lookupRow
      (updateRow s.goals gid fun g => { g with current_amount := g.current_amount + amount })
        gid =
      some { g with current_amount := g.current_amount + amount } := by
    rw [lookupRow_updateRow, hg]
    simp
  rw [hinc]
  dsimp only
  by_cases hc : g.target_amount ≤ g.current_amount + amount
  · rw [if_pos hc]
    have hdone : lookupRow
        (updateRow
          (updateRow s.goals gid fun g => { g with current_amount := g.current_amount + amount })
          gid fun g => { g with is_completed := true }) gid =
        some { g with current_amount := g.current_amount + amount, is_completed := true } := by
      rw [lookupRow_updateRow, hinc]
      simp
    exact ⟨_, hdone, by simp, fun _ => by simp, fun _ => by simp⟩
  · rw [if_neg hc]
    exact ⟨_, hinc, by simp, fun hcc => absurd hcc hc, fun hcomp => by simpa using hcomp⟩

/-- C5 (witness): depositing 40 into a goal at 60 of 100 reaches the
target and completes the goal. -/
theorem goal_deposit_progress_witness :
    ∃ g1, lookupRow exGoalAfter.goals 1 = some g1 ∧
      g1.current_amount = 60 + 40 ∧
      ((100 : ℚ) ≤ 60 + 40 → g1.is_completed = true) ∧
      (false = true → g1.is_completed = true) :=
  goal_deposit_progress exGoalState exGoalAfter 0 1 ⟨"Car", 100, 60, false⟩ 40
    (by norm_num [lookupRow, exGoalState, ex0])
    (by norm_num [createDeposit, exGoalAfter])

/-- C6: a withdrawal of an amount strictly greater than the current
balance fails with the insufficient-balance error and leaves the whole
user state — balance and transaction ledger included — unchanged. -/
theorem withdrawal_insufficient_balance (s : UserState) (amount : ℚ)
    (description : Option String)
    (hpos : 0 < amount) (hgt : s.total_balance < amount) :
    createWithdrawal s amount description =
      (Except.error ApiError.insufficientBalanceError, s) := by
  unfold createWithdrawal
  rw [if_neg (not_le.mpr hpos), if_pos hgt]

/-- C6 (witness): withdrawing 40 from a balance of 30. -/
theorem withdrawal_insufficient_balance_witness :
    createWithdrawal exBal30 40 none =
      (Except.error ApiError.insufficientBalanceError, exBal30) :=
  withdrawal_insufficient_balance exBal30 40 none (by norm_num)
    (by norm_num [exBal30, ex0])

/-- C10: a withdrawal of exactly the current balance succeeds (the
insufficiency check is strict), appends a confirmed withdrawal
Transaction row, and leaves total_balance exactly 0. -/
theorem withdrawal_exact_balance (s : UserState) (amount : ℚ) (description : Option String)
    (hpos : 0 < amount) (heq : amount = s.total_balance) :
    (createWithdrawal s amount description).1 = Except.ok () ∧
    (createWithdrawal s amount description).2.total_balance = 0 ∧
    (createWithdrawal s amount description).2.transactions =
      s.transactions ++ [⟨TxType.withdrawal, amount,
        description.getD "Withdrawal to external wallet", TxStatus.confirmed⟩] := by
  unfold createWithdrawal
  rw [if_neg (not_le.mpr hpos), if_neg (not_lt.mpr (le_of_eq heq))]
  refine ⟨rfl, ?_, rfl⟩
  rw [heq]
  simp

/-- C10 (witness): withdrawing 30 from a balance of exactly 30. -/
theorem withdrawal_exact_balance_witness :
    (createWithdrawal exBal30 30 none).1 = Except.ok () ∧
    (createWithdrawal exBal30 30 none).2.total_balance = 0 ∧
    (createWithdrawal exBal30 30 none).2.transactions =
      exBal30.transactions ++ [⟨TxType.withdrawal, 30,
        (none : Option String).getD "Withdrawal to external wallet", TxStatus.confirmed⟩] :=
  withdrawal_exact_balance exBal30 30 none (by norm_num) (by norm_num [exBal30, ex0])

/-- A user state holding 100 in the wallet and no allocations. -/
def exC1 : UserState := { ex0 with total_balance := 100 }

/-- A single allocation instruction of 50 at 10% APY. -/
def exC1Entry : AllocationEntry := ⟨"lending", "aave-v3-usdc", "Aave V3", 50, 100, 10⟩

/-- The state after allocating `exC1Entry` from `exC1`. -/
def exC1Alloc : UserState :=
  { exC1 with
      allocations := [(0, ⟨"lending", "aave-v3-usdc", "Aave V3", 50, 10, 0, 50 * 10 / 365 / 100⟩)]
      next_alloc_id := 1
      history := [⟨50, [exC1Entry], "lite"⟩] }

/-- C1 (counterexample): the allocate route never debits
`users.total_balance`, while the deallocation route credits
`amount_allocated` back, so Allocate followed by Deallocate of that same
allocation does not return the balance to its pre-allocation value: from a
balance of 100, allocating 50 and deallocating the created row leaves a
balance of 150, not 100. -/
theorem allocate_deallocate_counterexample :
    ((allocateDeposit exC1 50 [exC1Entry] "lite").toOption.map fun s1 =>
        (deleteAllocation s1 0).2.total_balance) ≠ some exC1.total_balance ∧
    ((allocateDeposit exC1 50 [exC1Entry] "lite").toOption.map fun s1 =>
        (deleteAllocation s1 0).2.total_balance) = some (exC1.total_balance + 50) := by
  constructor <;>
    norm_num [allocateDeposit, upsertPoolAllocation, findAllocation, deleteAllocation,
      lookupRow, List.foldl, Except.toOption, exC1, exC1Entry, ex0]

/-- C1 (amended): Allocate leaves `total_balance` unchanged, and
Deallocate of the row Allocate created (under a key with no existing
allocation) credits the allocated amount, so the round trip yields exactly
the pre-allocation balance plus the allocated amount. -/
theorem allocate_deallocate_amended (s s1 : UserState) (e : AllocationEntry)
    (depositAmount : ℚ) (userMode : String)
    (hfresh : findAllocation s.allocations e.protocolId e.poolType = none)
    (hid : lookupRow s.allocations s.next_alloc_id = none)
    (halloc : allocateDeposit s depositAmount [e] userMode = Except.ok s1) :
    s1.total_balance = s.total_balance ∧
    (deleteAllocation s1 s.next_alloc_id).1 = Except.ok () ∧
    (deleteAllocation s1 s.next_alloc_id).2.total_balance = s.total_balance + e.amount := by
  unfold allocateDeposit at halloc
  rw [if_neg (by simp : ¬([e] = ([] : List AllocationEntry)))] at halloc
  by_cases hm : userMode = "lite" ∨ userMode = "balanced" ∨ userMode = "pro"
  · rw [if_neg (not_not_intro hm)] at halloc
    simp only [List.foldl, upsertPoolAllocation, hfresh, Except.ok.injEq] at halloc
    subst halloc
    refine ⟨rfl, ?_, ?_⟩ <;>
    · unfold deleteAllocation
      dsimp only
      rw [lookupRow_append_of_none _ _ _ hid]
      dsimp only [lookupRow]
      rw [if_pos rfl]
  · rw [if_pos hm] at halloc
    exact absurd halloc (by simp)

/-- C1 (witness): the amended round trip evaluated from a balance of 100
with a fresh allocation of 50. -/
theorem allocate_deallocate_amended_witness :
    exC1Alloc.total_balance = exC1.total_balance ∧
    (deleteAllocation exC1Alloc exC1.next_alloc_id).1 = Except.ok () ∧
    (deleteAllocation exC1Alloc exC1.next_alloc_id).2.total_balance =
      exC1.total_balance + 50 :=
  allocate_deallocate_amended exC1 exC1Alloc exC1Entry 50 "lite"
    (by norm_num [findAllocation, exC1, ex0])
    (by norm_num [lookupRow, exC1, ex0])
    (by norm_num [allocateDeposit, upsertPoolAllocation, findAllocation, List.foldl,
      exC1, exC1Alloc, exC1Entry, ex0])

/-- First allocation instruction of the C7 scenario: 100 at 10% APY. -/
def exC7E1 : AllocationEntry := ⟨"lending", "aave-v3-usdc", "Aave V3", 100, 100, 10⟩

/-- Second allocation instruction of the C7 scenario: 50 more at 12% APY. -/
def exC7E2 : AllocationEntry := ⟨"lending", "aave-v3-usdc", "Aave V3", 50, 100, 12⟩

/-- A user state already holding the allocation created by `exC7E1`. -/
def exC7State : UserState :=
  { ex0 with
      allocations := [(0, ⟨"lending", "aave-v3-usdc", "Aave V3", 100, 10, 0,
        100 * 10 / 365 / 100⟩)]
      next_alloc_id := 1 }

/-- C7: an Allocate entry hitting an existing (user, protocol_id,
pool_type) row adds the amount to amount_allocated, overwrites current_apy
with the latest value and recomputes daily_earnings as
new_total * apy / 365 / 100; in particular, allocating 100 at 10% then 50
at 12% to the same protocol yields (150, 12, 150*12/365/100). -/
theorem allocation_merge (s : UserState) (e : AllocationEntry) (id : ℕ)
    (row : PoolAllocation)
    (hfind : findAllocation s.allocations e.protocolId e.poolType = some (id, row)) :
    (∃ row1, lookupRow (upsertPoolAllocation s e).allocations id = some row1 ∧
      row1.amount_allocated = row.amount_allocated + e.amount ∧
      row1.current_apy = e.apy ∧
      row1.daily_earnings = (row.amount_allocated + e.amount) * e.apy / 365 / 100) ∧
    ((allocateDeposit ex0 100 [exC7E1] "lite").toOption.bind fun s1 =>
        (allocateDeposit s1 50 [exC7E2] "lite").toOption).map
      (fun s2 => lookupRow s2.allocations 0) =
      some (some ⟨"lending", "aave-v3-usdc", "Aave V3", 150, 12, 0,
        150 * 12 / 365 / 100⟩) := by
  constructor
  · obtain ⟨v, hv⟩ :=
      lookupRow_isSome_of_findAllocation s.allocations e.protocolId e.poolType id row hfind
    unfold upsertPoolAllocation
    rw [hfind]
    dsimp only
    refine ⟨{ row with
        amount_allocated := row.amount_allocated + e.amount
        current_apy := e.apy
        daily_earnings := (row.amount_allocated + e.amount) * e.apy / 365 / 100 },
      ?_, rfl, rfl, rfl⟩
    rw [lookupRow_updateRow, hv]
    simp
  · norm_num [allocateDeposit, upsertPoolAllocation, findAllocation, updateRow, lookupRow,
      List.foldl, Except.toOption, ex0, exC7E1, exC7E2]

/-- C7 (witness): merging 50 at 12% into an existing row of 100 at 10%. -/
theorem allocation_merge_witness :
    ∃ row1, lookupRow (upsertPoolAllocation exC7State exC7E2).allocations 0 = some row1 ∧
      row1.amount_allocated = 100 + 50 ∧
      row1.current_apy = 12 ∧
      row1.daily_earnings = (100 + 50) * 12 / 365 / 100 :=
  (allocation_merge exC7State exC7E2 0
    ⟨"lending", "aave-v3-usdc", "Aave V3", 100, 10, 0, 100 * 10 / 365 / 100⟩
    (by norm_num [findAllocation, exC7State, exC7E2, ex0])).1

/-- C8: after any `getProtocolAPY` call, if the stored cache entry for the
protocol is fresh (second call strictly less than CACHE_DURATION after the
stored fetch timestamp), the second call returns the identical cached APY
without invoking the fetcher and leaves the cache untouched; if the entry
is CACHE_DURATION old or older, the second call invokes the fetcher and
stores the newly fetched value with the current timestamp. -/
theorem apy_cache_two_calls (fetchAPY : String → ℤ → ℚ) (cache : ApyCache)
    (protocolId : String) (t1 t2 : ℤ) (e : CacheEntry)
    (hstored :
      cacheGet (getProtocolAPY fetchAPY cache protocolId t1).cache protocolId = some e) :
    (t2 - e.timestamp < CACHE_DURATION →
      getProtocolAPY fetchAPY (getProtocolAPY fetchAPY cache protocolId t1).cache
          protocolId t2 =
        ⟨(getProtocolAPY fetchAPY cache protocolId t1).apy,
         (getProtocolAPY fetchAPY cache protocolId t1).cache, false⟩) ∧
    (CACHE_DURATION ≤ t2 - e.timestamp →
      (getProtocolAPY fetchAPY (getProtocolAPY fetchAPY cache protocolId t1).cache
          protocolId t2).fetcherInvoked = true ∧
      cacheGet (getProtocolAPY fetchAPY (getProtocolAPY fetchAPY cache protocolId t1).cache
          protocolId t2).cache protocolId = some ⟨fetchAPY protocolId t2, t2⟩) := by
  have happy : e.apy = (getProtocolAPY fetchAPY cache protocolId t1).apy :=
    getProtocolAPY_stored_apy fetchAPY cache protocolId t1 e hstored
  set r1 := getProtocolAPY fetchAPY cache protocolId t1 with hr1
  constructor
  · intro hlt
    unfold getProtocolAPY
    rw [hstored]
    dsimp only
    rw [if_pos hlt, happy]
  · intro hge
    unfold getProtocolAPY
    rw [hstored]
    dsimp only
    rw [if_neg (not_lt.mpr hge)]
    exact ⟨rfl, cacheGet_cacheSet_self _ _ _⟩

/-- C8 (witness): a first call at time 0 on an empty cache followed by a
second call at 599999 ms (strictly under 10 minutes) returns the cached
value without fetching. -/
theorem apy_cache_two_calls_witness :
    getProtocolAPY (fun _ _ => 10) (getProtocolAPY (fun _ _ => 10) [] "aave-v3-usdc" 0).cache
        "aave-v3-usdc" 599999 =
      ⟨(getProtocolAPY (fun _ _ => 10) [] "aave-v3-usdc" 0).apy,
       (getProtocolAPY (fun _ _ => 10) [] "aave-v3-usdc" 0).cache, false⟩ :=
  (apy_cache_two_calls (fun _ _ => 10) [] "aave-v3-usdc" 0 599999 ⟨10, 0⟩
      (by simp [getProtocolAPY, cacheGet, cacheSet])).1 (by decide)

end StackSave
